import Mathlib

/-!
Verification of the loggifly-helper webhook service (`src/app.py`).

The development shallowly embeds the pieces of `app.py` the claims are
about:

* `parse_size` (nested in `setup_logging`, lines 38-47): converts a size
  string such as "10MB" to a byte count.  Python's `int(str)` conversion is
  modelled by `pyIntParse`; a raised `ValueError` is modelled as `none`.
* the `/webhook` handler (lines 81-123): payload acquisition
  (`request.get_json() or {}` / plain-text fallback), field extraction with
  defaults, formatting per `LOG_FORMAT`, and the blanket
  `except Exception` that turns any error into a 500 response.
* the rotating sink configured in `setup_logging` (lines 52-58).  The
  rotation algorithm itself lives in Python's standard library
  (`logging.handlers.RotatingFileHandler`), not in this repository, so it
  is modelled from the spec (section 4.3).

Python values that can appear in a decoded JSON payload are embedded as
`PyVal`; Python strings are modelled as Lean `String` / `List Char`
(ASCII-faithful: the `str.upper` and `int()` models cover the ASCII
behaviour, which is all the configuration strings use).
-/

/-- Embedding of the Python values a decoded JSON payload can contain
(`None`, `bool`, `int`, `str`, `list`, `dict`).  JSON floats do not occur
in any claim and are omitted.  A Python `dict` produced by `json.loads`
has unique keys, so an association list is a faithful image. -/
inductive PyVal where
  | none
  | bool (b : Bool)
  | int (n : Int)
  | str (s : String)
  | list (items : List PyVal)
  | dict (entries : List (String × PyVal))
deriving Repr

/-- Python truthiness (`bool(v)`) for the embedded values: `None`, `False`,
`0`, `""`, `[]` and `\x7b\x7d` are falsy, everything else truthy.  Used for
`request.get_json() or \x7b\x7d` on line 89 of `app.py`. -/
def pyTruthy : PyVal → Bool
  | .none => false
  | .bool b => b
  | .int n => n != 0
  | .str s => s != ""
  | .list xs => !xs.isEmpty
  | .dict es => !es.isEmpty

mutual
/-- Python `repr` of an embedded value (ASCII fragment: inner strings are
wrapped in single quotes without further escaping, which is exact for the
quote-free strings appearing in the claims). -/
def pyRepr : PyVal → String
  | .none => "None"
  | .bool true => "True"
  | .bool false => "False"
  | .int n => toString n
  | .str s => "'" ++ s ++ "'"
  | .list xs => "[" ++ pyReprItems xs ++ "]"
  | .dict es => "\x7b" ++ pyReprEntries es ++ "\x7d"
/-- Comma-separated `repr` of list items. -/
def pyReprItems : List PyVal → String
  | [] => ""
  | [x] => pyRepr x
  | x :: y :: xs => pyRepr x ++ ", " ++ pyReprItems (y :: xs)
/-- Comma-separated `repr` of dict entries. -/
def pyReprEntries : List (String × PyVal) → String
  | [] => ""
  | [(k, v)] => "'" ++ k ++ "': " ++ pyRepr v
  | (k, v) :: e :: es => "'" ++ k ++ "': " ++ pyRepr v ++ ", " ++ pyReprEntries (e :: es)
end

/-- Python `str(v)` as applied by an f-string: strings pass through
unquoted, every other value renders as its `repr`. -/
def pyStr : PyVal → String
  | .str s => s
  | v => pyRepr v

/-- Python type name of a value, as it appears in an `AttributeError`
message such as `'list' object has no attribute 'get'`. -/
def pyTypeName : PyVal → String
  | .none => "NoneType"
  | .bool _ => "bool"
  | .int _ => "int"
  | .str _ => "str"
  | .list _ => "list"
  | .dict _ => "dict"

/-- ASCII model of Python `str.upper` on one character: `a`-`z` map to
`A`-`Z`, everything else is unchanged. -/
def pyUpperChar (c : Char) : Char :=
  if 97 ≤ c.toNat ∧ c.toNat ≤ 122 then Char.ofNat (c.toNat - 32) else c

/-- The characters Python's `int(str)` strips from both ends of its
argument (ASCII whitespace: space, tab, newline, carriage return,
vertical tab, form feed). -/
def isPySpace (c : Char) : Bool :=
  c.toNat = 32 || c.toNat = 9 || c.toNat = 10 || c.toNat = 13 ||
    c.toNat = 11 || c.toNat = 12

/-- ASCII decimal digit test (`0`-`9`). -/
def isDigitC (c : Char) : Bool :=
  48 ≤ c.toNat && c.toNat ≤ 57

/-- Strip leading and trailing Python whitespace, as `int(str)` does. -/
def stripWS (l : List Char) : List Char :=
  ((l.dropWhile isPySpace).reverse.dropWhile isPySpace).reverse

/-- No two adjacent underscores (part of Python's numeric-literal
grammar: an underscore must separate two digits). -/
def noAdjUnderscore : List Char → Bool
  | a :: b :: rest => (!(a == '_' && b == '_')) && noAdjUnderscore (b :: rest)
  | _ => true

/-- A valid Python digit run after the optional sign: nonempty, starts
and ends with a digit, consists of digits and single separating
underscores.  This is what `int(str)` accepts once whitespace and sign
are removed. -/
def digitRunOk (l : List Char) : Bool :=
  !l.isEmpty && isDigitC (l.headD ' ') && isDigitC (l.getLastD ' ') &&
    l.all (fun c => isDigitC c || c == '_') && noAdjUnderscore l

/-- Decimal value of a digit list (underscores already removed). -/
def digitsValL (l : List Char) : Nat :=
  l.foldl (fun a c => a * 10 + (c.toNat - 48)) 0

/-- Sign-and-digit-run part of Python's `int(str)` conversion, applied
to the already-whitespace-stripped text. -/
def pyIntCore : List Char → Option Int
  | [] => none
  | c :: rest =>
    if c = '+' then
      if digitRunOk rest then
        some ((digitsValL (rest.filter fun d => !(d == '_')) : Nat) : Int)
      else none
    else if c = '-' then
      if digitRunOk rest then
        some (-((digitsValL (rest.filter fun d => !(d == '_')) : Nat) : Int))
      else none
    else
      if digitRunOk (c :: rest) then
        some ((digitsValL ((c :: rest).filter fun d => !(d == '_')) : Nat) : Int)
      else none

/-- Model of Python's `int(str)` conversion on ASCII input: strip
whitespace, read an optional sign, then require a valid digit run.  A
`ValueError` is modelled as `none`. -/
def pyIntParse (l : List Char) : Option Int :=
  pyIntCore (stripWS l)

/-- Embedding of `parse_size` (`app.py` lines 38-47) over character
lists: uppercase the input, test the suffixes `MB`, `KB`, `GB` in the
order the source does, multiply the integer value of the remaining
characters (Python slice `[:-2]`) by the corresponding factor; with no
recognised suffix the whole string is converted.  A raised `ValueError`
from `int` is `none`. -/
def parseSizeL (s : List Char) : Option Int :=
  let u := s.map pyUpperChar
  if List.isSuffixOf "MB".data u then
    (pyIntParse (u.take (u.length - 2))).map (fun n => n * (1024 * 1024))
  else if List.isSuffixOf "KB".data u then
    (pyIntParse (u.take (u.length - 2))).map (fun n => n * 1024)
  else if List.isSuffixOf "GB".data u then
    (pyIntParse (u.take (u.length - 2))).map (fun n => n * (1024 * 1024 * 1024))
  else
    pyIntParse u

/-- The `parse_size` function of `app.py` on Lean strings. -/
def parse_size (s : String) : Option Int :=
  parseSizeL s.data

/-- The part of the (uppercased) size string that `parse_size` hands to
`int`: everything before a recognised two-letter suffix, or the whole
string when no suffix matches. -/
def numericPart (u : List Char) : List Char :=
  if List.isSuffixOf "MB".data u || List.isSuffixOf "KB".data u ||
      List.isSuffixOf "GB".data u then
    u.take (u.length - 2)
  else u

/-- One hexadecimal digit (uppercase, as `json.dumps` emits in `\uXXXX`
escapes). -/
def hexDigit (n : Nat) : Char :=
  if n < 10 then Char.ofNat (48 + n) else Char.ofNat (55 + n)

/-- Escape of one character inside a JSON string, following
`json.dumps`: quote, backslash, the short control escapes, and `\u00XX`
for the remaining control characters.  (The `ensure_ascii` escaping of
non-ASCII characters is not modelled; no claim exercises it.) -/
def jsonEscapeChar (c : Char) : String :=
  if c = '"' then "\\\""
  else if c = '\\' then "\\\\"
  else if c = '\n' then "\\n"
  else if c = '\r' then "\\r"
  else if c = '\t' then "\\t"
  else if c.toNat < 32 then
    "\\u00" ++ String.singleton (hexDigit (c.toNat / 16)) ++
      String.singleton (hexDigit (c.toNat % 16))
  else String.singleton c

/-- JSON encoding of a string, double-quoted and escaped. -/
def jsonStr (s : String) : String :=
  "\"" ++ s.data.foldl (fun acc c => acc ++ jsonEscapeChar c) "" ++ "\""

mutual
/-- Model of `json.dumps` with its default separators, producing a
single-line rendering of an embedded value. -/
def pyJsonDumps : PyVal → String
  | .none => "null"
  | .bool true => "true"
  | .bool false => "false"
  | .int n => toString n
  | .str s => jsonStr s
  | .list xs => "[" ++ pyJsonItems xs ++ "]"
  | .dict es => "\x7b" ++ pyJsonEntries es ++ "\x7d"
/-- Comma-separated dumps of list items. -/
def pyJsonItems : List PyVal → String
  | [] => ""
  | [x] => pyJsonDumps x
  | x :: y :: xs => pyJsonDumps x ++ ", " ++ pyJsonItems (y :: xs)
/-- Comma-separated dumps of dict entries. -/
def pyJsonEntries : List (String × PyVal) → String
  | [] => ""
  | [(k, v)] => jsonStr k ++ ": " ++ pyJsonDumps v
  | (k, v) :: e :: es =>
      jsonStr k ++ ": " ++ pyJsonDumps v ++ ", " ++ pyJsonEntries (e :: es)
end

/-- Python `dict.get(k, default)` on the association-list image of a
dict (keys are unique after `json.loads`, so the first match is the
value). -/
def dictGet (d : List (String × PyVal)) (k : String) (dflt : PyVal) : PyVal :=
  match d.lookup k with
  | some v => v
  | Option.none => dflt

/-- The canonical notification record the handler extracts on lines
96-99 of `app.py`.  Fields hold arbitrary payload values: the source
never coerces them to strings before interpolation. -/
structure LogRecord where
  container : PyVal
  keyword : PyVal
  message : PyVal
  timestamp : PyVal
deriving Repr

/-- Field extraction of `app.py` lines 96-99: `data.get` with the
chained defaults.  On a non-dict value Python raises `AttributeError`
(`.get` does not exist), embedded as `.error`; `now` stands for
`datetime.now().isoformat()`. -/
def extractFields (data : PyVal) (now : String) : Except String LogRecord :=
  match data with
  | .dict d => .ok
      { container := dictGet d "container" (.str "unknown")
        keyword := dictGet d "keyword" (dictGet d "keywords" (.str "unknown"))
        message := dictGet d "message"
          (dictGet d "title" (dictGet d "body" (.str "No message")))
        timestamp := dictGet d "timestamp" (.str now) }
  | v => .error ("'" ++ pyTypeName v ++ "' object has no attribute 'get'")

/-- The dict passed to `json.dumps` on lines 103-109 of `app.py` when
`LOG_FORMAT` is `json`: the four extracted fields plus the raw payload
under `raw_data`. -/
def jsonLogDict (r : LogRecord) (data : PyVal) : List (String × PyVal) :=
  [("timestamp", r.timestamp), ("container", r.container),
   ("keyword", r.keyword), ("message", r.message), ("raw_data", data)]

/-- Log-entry formatting of `app.py` lines 102-113, keyed on
`LOG_FORMAT`: `json` dumps `jsonLogDict`; `simple` is the f-string
`f"..."` interpolating the three fields separated by " | "; everything
else (the `detailed` default) is the labelled f-string. -/
def formatLogEntry (fmt : String) (r : LogRecord) (data : PyVal) : String :=
  if fmt = "json" then
    pyJsonDumps (.dict (jsonLogDict r data))
  else if fmt = "simple" then
    pyStr r.container ++ " | " ++ pyStr r.keyword ++ " | " ++ pyStr r.message
  else
    "Container: " ++ pyStr r.container ++ " | Keyword: " ++ pyStr r.keyword ++
      " | Message: " ++ pyStr r.message

/-- Substring test over character lists, modelling Python's
`'application/json' in content_type`. -/
def hasSubstr (needle : List Char) : List Char → Bool
  | [] => needle.isEmpty
  | c :: t => List.isPrefixOf needle (c :: t) || hasSubstr needle t

/-- One inbound POST to `/webhook`.  The body itself is handled by
Flask, so the request carries the outcomes of the two accesses the
handler makes: `jsonBody` is the result of `request.get_json()`
(`.error` models the `BadRequest` Flask raises on a malformed JSON body
when the content type is JSON), and `textBody` is the result of
`request.data.decode('utf-8')` (`.error` models a `UnicodeDecodeError`). -/
structure WebhookRequest where
  contentType : String
  jsonBody : Except String PyVal
  textBody : Except String String

/-- Payload acquisition of `app.py` lines 86-93: with a JSON content
type, `request.get_json() or \x7b\x7d` (so any falsy parse result becomes an
empty dict, and a parse error propagates as an exception); otherwise the
decoded body text becomes the `message` field of a fresh dict. -/
def getData (r : WebhookRequest) : Except String PyVal :=
  if hasSubstr "application/json".data r.contentType.data then
    match r.jsonBody with
    | .ok v => .ok (if pyTruthy v then v else .dict [])
    | .error e => .error e
  else
    match r.textBody with
    | .ok t => .ok (.dict [("message", .str t)])
    | .error e => .error e

/-- The body of the `try` block of the `/webhook` handler (lines 84-118):
acquire the payload, extract the fields, format the entry.  The result
is the log line handed to `logger.info`; any raised exception is the
`.error` case. -/
def webhookPipeline (fmt now : String) (r : WebhookRequest) :
    Except String String := do
  let data ← getData r
  let record ← extractFields data now
  pure (formatLogEntry fmt record data)

/-- An HTTP response: status code plus the JSON body's string fields. -/
structure HttpResponse where
  status : Nat
  fields : List (String × String)
deriving Repr, DecidableEq

/-- The complete `/webhook` handler (lines 81-123): on success the 200
success body, and for any exception the blanket `except Exception`
produces a 500 body whose message wraps the error text. -/
def webhook (fmt now : String) (r : WebhookRequest) : HttpResponse :=
  match webhookPipeline fmt now r with
  | .ok _ =>
      { status := 200
        fields := [("status", "success"), ("message", "Notification logged")] }
  | .error e =>
      { status := 500
        fields := [("status", "error"),
                   ("message", "Error processing webhook: " ++ e)] }

/-- State of the rotating sink: the content of the current log file and
the contents of the numbered backups, `backups[i]` being the file
`\x7bpath\x7d.(i+1)` (so the head is `.1`, the most recently rotated-out
content, and higher indices are older). -/
structure SinkState where
  current : String
  backups : List String
deriving Repr, DecidableEq

/-- Modelled from the spec: the rotation step of the size-bounded
rotating sink (spec section 4.3).  The algorithm lives in Python's
`logging.handlers.RotatingFileHandler`, which is standard-library code
not present in this repository.  Rotation renames every numbered backup
up by one index, dropping the one that would exceed the backup count
`b`, renames the current file to backup index 1, and opens a fresh
empty current file.  In the list image this is exactly consing the
current content onto the first `b - 1` backups. -/
def rotateSink (b : Nat) (st : SinkState) : SinkState :=
  { current := "", backups := st.current :: st.backups.take (b - 1) }

/-- Modelled from the spec: one `append` of the rotating sink (spec
section 4.3).  Before the write, if the current file size plus the
encoded line size plus one newline byte would exceed the maximum size
`m`, rotate once; then append the line and a trailing newline.  At most
one rotation occurs per append. -/
def appendLine (b m : Nat) (st : SinkState) (line : String) : SinkState :=
  let st1 :=
    if m < st.current.utf8ByteSize + line.utf8ByteSize + 1 then rotateSink b st
    else st
  { st1 with current := st1.current ++ line ++ "\n" }

/-- The sink after appending a sequence of lines to a freshly opened
sink (empty current file, no backups). -/
def sinkRun (b m : Nat) (lines : List String) : SinkState :=
  lines.foldl (appendLine b m) ⟨"", []⟩

/-- Whether an embedded value is a Python dict (the only shape whose
`.get` calls succeed in the extraction code). -/
def isDict : PyVal → Bool
  | .dict _ => true
  | _ => false

/-- The payload of end-to-end scenario 1 of the spec. -/
def nginxPayload : List (String × PyVal) :=
  [("container", .str "nginx"), ("keyword", .str "error"),
   ("message", .str "disk full")]

/-- A fixed receipt timestamp standing for `datetime.now().isoformat()`. -/
def now0 : String := "2026-01-12T00:00:00"

/-- Scenario 1 as a request: the nginx payload, well-formed, with a JSON
content type. -/
def nginxRequest : WebhookRequest :=
  ⟨"application/json", .ok (.dict nginxPayload), .ok ""⟩

/-- The record scenario 1 extracts. -/
def nginxRecord : LogRecord :=
  ⟨.str "nginx", .str "error", .str "disk full", .str now0⟩

/-- A request whose body is not parseable as JSON, sent with a JSON
content type: Flask's `request.get_json()` raises `BadRequest`, carried
here as the `.error` of `jsonBody` with the message `str(e)` produces. -/
def badJsonRequest : WebhookRequest :=
  ⟨"application/json",
   .error "400 Bad Request: Failed to decode JSON object: Expecting value: line 1 column 1 (char 0)",
   .ok "\x7bnot json"⟩

/-- Claim C1 (amended): for every notification record with string field
values, formatting in mode `detailed` produces the labelled string
`"Container: \x7bcontainer\x7d | Keyword: \x7bkeyword\x7d | Message: \x7bmessage\x7d"`
(the code's `detailed` branch, `app.py` line 113), for any raw payload. -/
theorem detailed_format_labelled (c k m t : String) (data : PyVal) :
    formatLogEntry "detailed" ⟨.str c, .str k, .str m, .str t⟩ data =
      "Container: " ++ c ++ " | Keyword: " ++ k ++ " | Message: " ++ m := rfl

/-- Claim C1 (counterexample): the scenario-1 payload formatted in mode
`detailed` yields the log line
`"Container: nginx | Keyword: error | Message: disk full"`, not the
claimed `"nginx | error | disk full"`. -/
theorem detailed_format_cex :
    webhookPipeline "detailed" now0 nginxRequest =
        .ok "Container: nginx | Keyword: error | Message: disk full" ∧
      webhookPipeline "detailed" now0 nginxRequest ≠
        .ok "nginx | error | disk full" := by
  refine ⟨rfl, fun h => ?_⟩
  rw [show webhookPipeline "detailed" now0 nginxRequest =
      .ok "Container: nginx | Keyword: error | Message: disk full" from rfl] at h
  injection h with h
  exact absurd h (by decide)

/-- Claim C2 (amended): for every notification record with string field
values, formatting in mode `simple` produces
`"\x7bcontainer\x7d | \x7bkeyword\x7d | \x7bmessage\x7d"` (the code's `simple` branch,
`app.py` line 111) — there are no square brackets or colon. -/
theorem simple_format_pipes (c k m t : String) (data : PyVal) :
    formatLogEntry "simple" ⟨.str c, .str k, .str m, .str t⟩ data =
      c ++ " | " ++ k ++ " | " ++ m := rfl

/-- Claim C2 (counterexample): on the scenario-1 payload, mode `simple`
produces `"nginx | error | disk full"`, not the claimed
`"[nginx] error: disk full"`. -/
theorem simple_format_cex :
    webhookPipeline "simple" now0 nginxRequest = .ok "nginx | error | disk full" ∧
      webhookPipeline "simple" now0 nginxRequest ≠ .ok "[nginx] error: disk full" := by
  refine ⟨rfl, fun h => ?_⟩
  rw [show webhookPipeline "simple" now0 nginxRequest =
      .ok "nginx | error | disk full" from rfl] at h
  injection h with h
  exact absurd h (by decide)

/-- Claim C3 (amended): for every record and raw payload, mode `json`
produces the single-line `json.dumps` of an object whose key list is
exactly `timestamp, container, keyword, message, raw_data`; the keys
`title`, `version` and `type` never occur, so no `"1.0"`/`"info"`
defaults exist. -/
theorem json_format_keys (r : LogRecord) (data : PyVal) :
    formatLogEntry "json" r data = pyJsonDumps (.dict (jsonLogDict r data)) ∧
      (jsonLogDict r data).map Prod.fst =
        ["timestamp", "container", "keyword", "message", "raw_data"] ∧
      "title" ∉ (jsonLogDict r data).map Prod.fst ∧
      "version" ∉ (jsonLogDict r data).map Prod.fst ∧
      "type" ∉ (jsonLogDict r data).map Prod.fst := by
  refine ⟨rfl, rfl, ?_, ?_, ?_⟩ <;> · show ¬ _ ∈ ["timestamp", "container", "keyword", "message", "raw_data"]; decide

/-- Claim C3 (counterexample): on the scenario-1 payload the JSON log
object has key list `timestamp, container, keyword, message, raw_data` —
`title`, `version` and `type` are absent, contradicting the claimed key
set; the concrete dumped line is shown in full. -/
theorem json_format_cex :
    extractFields (.dict nginxPayload) now0 = .ok nginxRecord ∧
      (jsonLogDict nginxRecord (.dict nginxPayload)).map Prod.fst =
        ["timestamp", "container", "keyword", "message", "raw_data"] ∧
      "title" ∉ (jsonLogDict nginxRecord (.dict nginxPayload)).map Prod.fst ∧
      webhookPipeline "json" now0 nginxRequest =
        .ok "\x7b\"timestamp\": \"2026-01-12T00:00:00\", \"container\": \"nginx\", \"keyword\": \"error\", \"message\": \"disk full\", \"raw_data\": \x7b\"container\": \"nginx\", \"keyword\": \"error\", \"message\": \"disk full\"\x7d\x7d" := by
  refine ⟨rfl, rfl, by decide, rfl⟩

/-- Claim C7 (amended): a `keyword` supplied as a list is passed through
unchanged into the extracted record — the code never joins it with
`", "`; when interpolated into a log line it renders as the Python list
literal. -/
theorem keyword_list_passthrough (d : List (String × PyVal)) (now : String)
    (xs : List PyVal) (h : d.lookup "keyword" = some (.list xs)) :
    ∃ r, extractFields (.dict d) now = .ok r ∧ r.keyword = .list xs := by
  refine ⟨_, rfl, ?_⟩
  simp [extractFields, dictGet, h]

/-- Claim C7 (witness): the passthrough theorem applied to the payload
`\x7b"keyword": ["a", "b"]\x7d`. -/
theorem keyword_list_passthrough_witness :
    ([("keyword", PyVal.list [.str "a", .str "b"])].lookup "keyword" =
        some (PyVal.list [.str "a", .str "b"])) ∧
      ∃ r, extractFields (.dict [("keyword", PyVal.list [.str "a", .str "b"])]) now0 =
          .ok r ∧ r.keyword = .list [.str "a", .str "b"] :=
  ⟨rfl, keyword_list_passthrough _ now0 _ rfl⟩

/-- Claim C7 (counterexample): for the payload `\x7b"keyword": ["a", "b"]\x7d`
the extracted keyword is the list value itself, which is not the string
`"a, b"`; in a log line it renders as `['a', 'b']`. -/
theorem keyword_list_cex :
    extractFields (.dict [("keyword", PyVal.list [.str "a", .str "b"])]) now0 =
        .ok ⟨.str "unknown", .list [.str "a", .str "b"], .str "No message", .str now0⟩ ∧
      PyVal.list [.str "a", .str "b"] ≠ PyVal.str "a, b" ∧
      pyStr (PyVal.list [.str "a", .str "b"]) = "['a', 'b']" := by
  exact ⟨rfl, fun h => PyVal.noConfusion h, rfl⟩

/-- Claim C6: a request whose body is not parseable as JSON, sent with
an `application/json` content type, makes `request.get_json()` raise
`BadRequest`;  the blanket handler turns this into an HTTP 500 error
response — the payload is not treated as an empty object and the
response is not 200. -/
theorem webhook_malformed_json_500 :
    webhook "detailed" now0 badJsonRequest =
      ⟨500, [("status", "error"),
             ("message", "Error processing webhook: 400 Bad Request: Failed to decode JSON object: Expecting value: line 1 column 1 (char 0)")]⟩ := rfl

/-- Helper: with an acquired dict payload the pipeline succeeds and
produces the formatted entry of the extracted record. -/
theorem webhookPipeline_ok_of_dict (fmt now : String) (r : WebhookRequest)
    (d : List (String × PyVal)) (h : getData r = .ok (.dict d)) :
    webhookPipeline fmt now r = .ok (formatLogEntry fmt
      ⟨dictGet d "container" (.str "unknown"),
       dictGet d "keyword" (dictGet d "keywords" (.str "unknown")),
       dictGet d "message" (dictGet d "title" (dictGet d "body" (.str "No message"))),
       dictGet d "timestamp" (.str now)⟩ (.dict d)) := by
  unfold webhookPipeline
  rw [h]
  rfl

/-- Helper: with an acquired non-dict payload, field extraction raises
`AttributeError` and the pipeline fails with its message. -/
theorem webhookPipeline_error_of_nondict (fmt now : String) (r : WebhookRequest)
    (v : PyVal) (h : getData r = .ok v) (hnd : isDict v = false) :
    webhookPipeline fmt now r =
      .error ("'" ++ pyTypeName v ++ "' object has no attribute 'get'") := by
  unfold webhookPipeline
  rw [h]
  cases v
  case dict es => exact absurd hnd (by simp [isDict])
  all_goals rfl

/-- Claim C9: the webhook handler is total at the request boundary: for
every format, receipt time and request it responds either 200 with
status `success`, or — exactly when the pipeline raised an error `e` —
500 with status `error` and a message embedding the error text
(`"Error processing webhook: " ++ e`); no request can crash the
handler. -/
theorem webhook_total_response (fmt now : String) (r : WebhookRequest) :
    ((webhook fmt now r).status = 200 ∧
      (webhook fmt now r).fields.lookup "status" = some "success") ∨
    (∃ e, webhookPipeline fmt now r = .error e ∧
      (webhook fmt now r).status = 500 ∧
      (webhook fmt now r).fields.lookup "status" = some "error" ∧
      (webhook fmt now r).fields.lookup "message" =
        some ("Error processing webhook: " ++ e)) := by
  cases h : webhookPipeline fmt now r with
  | ok s =>
    have hw : webhook fmt now r =
        ⟨200, [("status", "success"), ("message", "Notification logged")]⟩ := by
      simp [webhook, h]
    left
    rw [hw]
    exact ⟨rfl, rfl⟩
  | error e =>
    have hw : webhook fmt now r =
        ⟨500, [("status", "error"),
               ("message", "Error processing webhook: " ++ e)]⟩ := by
      simp [webhook, h]
    right
    rw [hw]
    exact ⟨e, rfl, rfl, rfl, rfl⟩

/-- Claim C10 (amended): with a JSON content type and a well-formed JSON
body of value `v`, the handler responds 500 with status `error` exactly
when `v` is truthy and not an object (non-empty array, non-empty string,
nonzero number, `true`); every falsy value — `null`, `false`, `0`, `""`,
`[]`, and also `\x7b\x7d` — is coerced to an empty object by `or \x7b\x7d` and the
handler responds 200. -/
theorem webhook_nonobject_json (fmt now : String) (r : WebhookRequest) (v : PyVal)
    (hct : hasSubstr "application/json".data r.contentType.data = true)
    (hb : r.jsonBody = .ok v) :
    (pyTruthy v = false →
      webhook fmt now r =
        ⟨200, [("status", "success"), ("message", "Notification logged")]⟩) ∧
    (pyTruthy v = true → isDict v = false →
      (webhook fmt now r).status = 500 ∧
      (webhook fmt now r).fields.lookup "status" = some "error") := by
  have hdata : getData r = .ok (if pyTruthy v then v else .dict []) := by
    simp [getData, hct, hb]
  constructor
  · intro hf
    rw [hf] at hdata
    simp only [if_neg Bool.false_ne_true] at hdata
    have hp := webhookPipeline_ok_of_dict fmt now r [] hdata
    simp [webhook, hp]
  · intro ht hnd
    rw [ht] at hdata
    simp only [if_pos rfl] at hdata
    have hp := webhookPipeline_error_of_nondict fmt now r v hdata hnd
    have hw : webhook fmt now r =
        ⟨500, [("status", "error"),
               ("message", "Error processing webhook: " ++
                 ("'" ++ pyTypeName v ++ "' object has no attribute 'get'"))]⟩ := by
      simp [webhook, hp]
    rw [hw]
    exact ⟨rfl, rfl⟩

/-- Claim C10 (witness): the amended theorem applied to a request whose
body is the JSON array `[1]` (truthy, not an object). -/
theorem webhook_nonobject_json_witness :
    (hasSubstr "application/json".data
        ("application/json" : String).data = true) ∧
    ((⟨"application/json", .ok (.list [.int 1]), .ok ""⟩ : WebhookRequest).jsonBody
        = .ok (.list [.int 1])) ∧
    ((pyTruthy (.list [.int 1]) = false →
      webhook "detailed" now0 ⟨"application/json", .ok (.list [.int 1]), .ok ""⟩ =
        ⟨200, [("status", "success"), ("message", "Notification logged")]⟩) ∧
    (pyTruthy (.list [.int 1]) = true → isDict (.list [.int 1]) = false →
      (webhook "detailed" now0 ⟨"application/json", .ok (.list [.int 1]), .ok ""⟩).status = 500 ∧
      (webhook "detailed" now0 ⟨"application/json", .ok (.list [.int 1]), .ok ""⟩).fields.lookup "status" = some "error")) :=
  ⟨by decide, rfl,
    webhook_nonobject_json "detailed" now0 _ (.list [.int 1]) (by decide) rfl⟩

/-- Claim C10 (counterexample): the JSON number `0` is well-formed,
not an object, yet the handler responds 200 success — `0` is falsy, so
`or \x7b\x7d` replaces it with an empty dict and every field defaults. -/
theorem webhook_zero_json_cex :
    webhook "detailed" now0 ⟨"application/json", .ok (.int 0), .ok ""⟩ =
      ⟨200, [("status", "success"), ("message", "Notification logged")]⟩ := rfl

/-- Claim C8: with rotation enabled, a positive backup count `b` and any
maximum size `m`, after any sequence of appends to a fresh sink there
are at most `b` backup files; and each rotation conses the rotated-out
current content at index 1 while every surviving backup shifts up one
index, the backup that would exceed `b` being dropped
(`List.take (b - 1)`). -/
theorem sink_backup_invariant (b m : Nat) (hb : 0 < b) (lines : List String) :
    (sinkRun b m lines).backups.length ≤ b ∧
    ∀ st : SinkState,
      (rotateSink b st).backups = st.current :: st.backups.take (b - 1) := by
  constructor
  · have key : ∀ (l : List String) (st : SinkState), st.backups.length ≤ b →
        (l.foldl (appendLine b m) st).backups.length ≤ b := by
      intro l
      induction l with
      | nil => intro st h; simpa using h
      | cons x xs ih =>
        intro st h
        refine ih _ ?_
        unfold appendLine rotateSink
        dsimp only
        split
        · have : (st.backups.take (b - 1)).length ≤ b - 1 := by
            simp [Nat.min_le_left]
          simp only [List.length_cons]
          omega
        · simpa using h
    simpa [sinkRun] using key lines ⟨"", []⟩ (by simp)
  · intro st; rfl

/-- Claim C8 (witness): the invariant at backup count 2, maximum size
100, for a sequence of writes that crosses the bound three times. -/
theorem sink_backup_invariant_witness :
    0 < 2 ∧
    ((sinkRun 2 100
        [String.mk (List.replicate 120 'a'), String.mk (List.replicate 120 'b'),
         String.mk (List.replicate 120 'c'), String.mk (List.replicate 120 'd')]).backups.length ≤ 2 ∧
      ∀ st : SinkState,
        (rotateSink 2 st).backups = st.current :: st.backups.take 1) :=
  ⟨by decide, sink_backup_invariant 2 100 (by decide) _⟩

/-- Helper: uppercasing fixes whitespace characters. -/
theorem pyUpperChar_of_space (c : Char) (h : isPySpace c = true) :
    pyUpperChar c = c := by
  simp only [isPySpace, Bool.or_eq_true, decide_eq_true_eq] at h
  unfold pyUpperChar
  rw [if_neg]
  omega

/-- Helper: uppercasing fixes digit characters. -/
theorem pyUpperChar_of_digit (c : Char) (h : isDigitC c = true) :
    pyUpperChar c = c := by
  simp only [isDigitC, Bool.and_eq_true, decide_eq_true_eq] at h
  unfold pyUpperChar
  rw [if_neg]
  omega

/-- Helper: a digit is not whitespace. -/
theorem isPySpace_eq_false_of_digit (c : Char) (h : isDigitC c = true) :
    isPySpace c = false := by
  simp only [isDigitC, Bool.and_eq_true, decide_eq_true_eq] at h
  simp only [isPySpace, Bool.or_eq_false_iff, decide_eq_false_iff_not]
  omega

/-- Helper: a digit is not an underscore. -/
theorem beq_underscore_eq_false_of_digit (c : Char) (h : isDigitC c = true) :
    (c == '_') = false := by
  have hne : c ≠ '_' := by
    intro h2
    subst h2
    exact absurd h (by decide)
  simp [hne]

/-- Helper: a digit is not the letter `B`, so a digit-final string has
no `MB`/`KB`/`GB` suffix. -/
theorem ne_B_of_digit (c : Char) (h : isDigitC c = true) : c ≠ 'B' := by
  intro h2
  subst h2
  exact absurd h (by decide)

/-- Helper: a whitespace character is not the letter `B`. -/
theorem ne_B_of_space (c : Char) (h : isPySpace c = true) : c ≠ 'B' := by
  intro h2
  subst h2
  exact absurd h (by decide)

/-- Helper: mapping a function that fixes every element is the
identity. -/
theorem map_eq_self_of_fixed {f : Char → Char} {l : List Char}
    (h : ∀ c ∈ l, f c = c) : l.map f = l := by
  rw [List.map_congr_left h]
  exact List.map_id' l

/-- Helper: `dropWhile` jumps over a block of characters satisfying the
predicate. -/
theorem dropWhile_append_all {p : Char → Bool} (w l : List Char)
    (hw : ∀ c ∈ w, p c = true) :
    (w ++ l).dropWhile p = l.dropWhile p := by
  induction w with
  | nil => rfl
  | cons a w ih =>
    rw [List.cons_append, List.dropWhile_cons, if_pos (hw a (List.mem_cons_self a w))]
    exact ih (fun c hc => hw c (List.mem_cons_of_mem a hc))

/-- Helper: `dropWhile` stops at a head that falsifies the predicate. -/
theorem dropWhile_cons_of_neg {p : Char → Bool} (c : Char) (l : List Char)
    (h : p c = false) : (c :: l).dropWhile p = c :: l := by
  rw [List.dropWhile_cons, if_neg]
  simp [h]

/-- Helper: stripping whitespace from a digit block surrounded by
whitespace yields the digit block (the behaviour of `int(str)`'s
whitespace trimming). -/
theorem stripWS_space_digits_space (w1 d w2 : List Char)
    (hw1 : ∀ c ∈ w1, isPySpace c = true) (hw2 : ∀ c ∈ w2, isPySpace c = true)
    (hd : d ≠ []) (hdd : ∀ c ∈ d, isDigitC c = true) :
    stripWS (w1 ++ (d ++ w2)) = d := by
  obtain ⟨c, d', rfl⟩ : ∃ c d', d = c :: d' := by
    cases d with
    | nil => exact absurd rfl hd
    | cons c d' => exact ⟨c, d', rfl⟩
  unfold stripWS
  rw [dropWhile_append_all w1 _ hw1, List.cons_append,
    dropWhile_cons_of_neg _ _
      (isPySpace_eq_false_of_digit c (hdd c (List.mem_cons_self c d'))),
    ← List.cons_append, List.reverse_append,
    dropWhile_append_all _ _ (fun x hx => hw2 x (List.mem_reverse.mp hx))]
  obtain ⟨y, t, hy⟩ : ∃ y t, (c :: d').reverse = y :: t := by
    cases hr : (c :: d').reverse with
    | nil => exact absurd (List.reverse_eq_nil_iff.mp hr) (by simp)
    | cons y t => exact ⟨y, t, rfl⟩
  have hymem : y ∈ c :: d' := by
    rw [← List.mem_reverse, hy]
    exact List.mem_cons_self y t
  rw [hy, dropWhile_cons_of_neg _ _ (isPySpace_eq_false_of_digit y (hdd y hymem)),
    ← hy, List.reverse_reverse]

/-- Helper: a list without underscores has no adjacent underscores. -/
theorem noAdjUnderscore_of_no_underscore (l : List Char)
    (h : ∀ c ∈ l, (c == '_') = false) : noAdjUnderscore l = true := by
  induction l with
  | nil => rfl
  | cons a t ih =>
    cases t with
    | nil => rfl
    | cons b t2 =>
      show ((!(a == '_' && b == '_')) && noAdjUnderscore (b :: t2)) = true
      rw [h a (List.mem_cons_self a (b :: t2))]
      simp only [Bool.false_and, Bool.not_false, Bool.true_and]
      exact ih (fun c hc => h c (List.mem_cons_of_mem a hc))

/-- Helper: a nonempty all-digit list is a valid digit run. -/
theorem digitRunOk_of_digits (d : List Char) (hd : d ≠ [])
    (hdd : ∀ c ∈ d, isDigitC c = true) : digitRunOk d = true := by
  obtain ⟨c, d', rfl⟩ : ∃ c d', d = c :: d' := by
    cases d with
    | nil => exact absurd rfl hd
    | cons c d' => exact ⟨c, d', rfl⟩
  unfold digitRunOk
  simp only [Bool.and_eq_true]
  refine ⟨⟨⟨⟨by simp, ?_⟩, ?_⟩, ?_⟩, ?_⟩
  · simpa using hdd c (List.mem_cons_self c d')
  · rw [List.getLastD_cons]
    exact hdd _ (List.getLastD_mem_cons d' c)
  · rw [List.all_eq_true]
    intro x hx
    simp [hdd x hx]
  · exact noAdjUnderscore_of_no_underscore _
      (fun x hx => beq_underscore_eq_false_of_digit x (hdd x hx))

/-- Helper: filtering out underscores from an all-digit list is the
identity. -/
theorem filter_underscore_of_digits (d : List Char)
    (hdd : ∀ c ∈ d, isDigitC c = true) :
    (d.filter fun c => !(c == '_')) = d := by
  rw [List.filter_eq_self]
  intro a ha
  simp [beq_underscore_eq_false_of_digit a (hdd a ha)]

/-- Helper: `int(str)` on a whitespace-wrapped nonempty digit block
returns its decimal value. -/
theorem pyIntParse_space_digits_space (w1 d w2 : List Char)
    (hw1 : ∀ c ∈ w1, isPySpace c = true) (hw2 : ∀ c ∈ w2, isPySpace c = true)
    (hd : d ≠ []) (hdd : ∀ c ∈ d, isDigitC c = true) :
    pyIntParse (w1 ++ (d ++ w2)) = some ((digitsValL d : Nat) : Int) := by
  unfold pyIntParse
  rw [stripWS_space_digits_space w1 d w2 hw1 hw2 hd hdd]
  obtain ⟨c, d', rfl⟩ : ∃ c d', d = c :: d' := by
    cases d with
    | nil => exact absurd rfl hd
    | cons c d' => exact ⟨c, d', rfl⟩
  have hcd : isDigitC c = true := hdd c (List.mem_cons_self c d')
  show (if c = '+' then _ else if c = '-' then _ else
    if digitRunOk (c :: d') then
      some ((digitsValL ((c :: d').filter fun x => !(x == '_')) : Nat) : Int)
    else none) = _
  rw [if_neg (fun h => absurd hcd (by rw [h]; decide)),
    if_neg (fun h => absurd hcd (by rw [h]; decide)),
    if_pos (digitRunOk_of_digits _ (by simp) hdd),
    filter_underscore_of_digits _ hdd]

/-- Helper: a two-character list is a suffix of a list ending in those
two characters. -/
theorem isSuffixOf_pair_self (x y : Char) (v : List Char) :
    List.isSuffixOf [x, y] (v ++ [x, y]) = true := by
  rw [List.isSuffixOf_iff_suffix]
  exact ⟨v, rfl⟩

/-- Helper: if a two-character list is a suffix of a list ending in two
given characters, the characters agree. -/
theorem eq_pair_of_isSuffixOf_pair {a b x y : Char} {v : List Char}
    (h : List.isSuffixOf [a, b] (v ++ [x, y]) = true) : a = x ∧ b = y := by
  rw [List.isSuffixOf_iff_suffix] at h
  obtain ⟨t, ht⟩ := h
  have hlen : t.length = v.length := by
    have h2 := congrArg List.length ht
    simp only [List.length_append, List.length_cons, List.length_nil] at h2
    omega
  have h3 := List.append_inj_right ht hlen
  simp only [List.cons.injEq, and_true] at h3
  exact ⟨h3.1, h3.2⟩

/-- Helper: a list whose last element is not `b` has no suffix `[a, b]`. -/
theorem isSuffixOf_pair_eq_false_of_getLast {a b c : Char} {u : List Char}
    (h : u.getLast? = some c) (hc : c ≠ b) :
    List.isSuffixOf [a, b] u = false := by
  by_contra h2
  rw [Bool.not_eq_false, List.isSuffixOf_iff_suffix] at h2
  obtain ⟨t, ht⟩ := h2
  rw [← ht, List.getLast?_append_of_ne_nil t (by simp)] at h
  have hb : ([a, b] : List Char).getLast? = some b := rfl
  rw [hb] at h
  injection h with h3
  exact hc h3.symm

/-- Helper: a two-character suffix test fails when the first characters
disagree. -/
theorem isSuffixOf_pair_eq_false_of_ne {a b x y : Char} (v : List Char)
    (hne : a ≠ x) : List.isSuffixOf [a, b] (v ++ [x, y]) = false := by
  cases hx : List.isSuffixOf [a, b] (v ++ [x, y]) with
  | false => rfl
  | true => exact absurd (eq_pair_of_isSuffixOf_pair hx).1 hne

/-- Helper: a nonempty list has a last element, and it is a member. -/
theorem exists_getLast?_of_ne_nil (l : List Char) (h : l ≠ []) :
    ∃ y ∈ l, l.getLast? = some y := by
  obtain ⟨y, t, hy⟩ : ∃ y t, l.reverse = y :: t := by
    cases hr : l.reverse with
    | nil => exact absurd (List.reverse_eq_nil_iff.mp hr) h
    | cons y t => exact ⟨y, t, rfl⟩
  refine ⟨y, ?_, ?_⟩
  · rw [← List.mem_reverse, hy]
    exact List.mem_cons_self y t
  · rw [← List.head?_reverse, hy]
    rfl

/-- Claim C4 (amended): a size string made of a nonempty decimal digit
run, preceded (but, when a suffix is present, not followed) by
whitespace, with the suffix `KB`, `MB` or `GB` in any letter case or no
suffix at all — whitespace after the digits being allowed only in the
suffix-free form — parses to the digit value times 1024, 1024²,
1024³, or 1 respectively.  Trailing whitespace after a suffix is
rejected (see the counterexample), which is the one deviation from the
claim as stated. -/
theorem parse_size_amended (w1 d suf w2 : List Char) (mult : Int)
    (hw1 : ∀ c ∈ w1, isPySpace c = true) (hw2 : ∀ c ∈ w2, isPySpace c = true)
    (hd : d ≠ []) (hdd : ∀ c ∈ d, isDigitC c = true)
    (hsuf : (suf.map pyUpperChar = "MB".data ∧ mult = 1024 * 1024) ∨
            (suf.map pyUpperChar = "KB".data ∧ mult = 1024) ∨
            (suf.map pyUpperChar = "GB".data ∧ mult = 1024 * 1024 * 1024) ∨
            (suf = [] ∧ mult = 1))
    (htrail : suf = [] ∨ w2 = []) :
    parseSizeL (w1 ++ d ++ suf ++ w2) = some ((digitsValL d : Nat) * mult) := by
  have hw1fix : w1.map pyUpperChar = w1 :=
    map_eq_self_of_fixed (fun c hc => pyUpperChar_of_space c (hw1 c hc))
  have hw2fix : w2.map pyUpperChar = w2 :=
    map_eq_self_of_fixed (fun c hc => pyUpperChar_of_space c (hw2 c hc))
  have hdfix : d.map pyUpperChar = d :=
    map_eq_self_of_fixed (fun c hc => pyUpperChar_of_digit c (hdd c hc))
  have hu : (w1 ++ d ++ suf ++ w2).map pyUpperChar =
      w1 ++ d ++ suf.map pyUpperChar ++ w2 := by
    simp [List.map_append, hw1fix, hw2fix, hdfix]
  have hpint : pyIntParse (w1 ++ d) = some ((digitsValL d : Nat) : Int) := by
    have h0 := pyIntParse_space_digits_space w1 d [] hw1 (by simp) hd hdd
    simpa using h0
  simp only [parseSizeL]
  rw [hu]
  rcases hsuf with ⟨hs, hm⟩ | ⟨hs, hm⟩ | ⟨hs, hm⟩ | ⟨hs, hm⟩
  · -- suffix MB
    have hw2nil : w2 = [] := by
      rcases htrail with h | h
      · rw [h] at hs
        exact absurd hs (by decide)
      · exact h
    subst hw2nil
    subst hm
    rw [hs]
    rw [show ("MB".data : List Char) = ['M', 'B'] from rfl]
    simp only [List.append_nil]
    rw [if_pos (isSuffixOf_pair_self 'M' 'B' (w1 ++ d))]
    have hlen : ((w1 ++ d) ++ ['M', 'B']).length - 2 = (w1 ++ d).length := by
      simp
      omega
    rw [hlen, List.take_left, hpint]
    rfl
  · -- suffix KB
    have hw2nil : w2 = [] := by
      rcases htrail with h | h
      · rw [h] at hs
        exact absurd hs (by decide)
      · exact h
    subst hw2nil
    subst hm
    rw [hs]
    rw [show ("KB".data : List Char) = ['K', 'B'] from rfl]
    simp only [List.append_nil]
    rw [if_neg (by rw [@isSuffixOf_pair_eq_false_of_ne 'M' 'B' 'K' 'B' (w1 ++ d)
      (by decide)]; exact Bool.false_ne_true)]
    rw [if_pos (isSuffixOf_pair_self 'K' 'B' (w1 ++ d))]
    have hlen : ((w1 ++ d) ++ ['K', 'B']).length - 2 = (w1 ++ d).length := by
      simp
      omega
    rw [hlen, List.take_left, hpint]
    rfl
  · -- suffix GB
    have hw2nil : w2 = [] := by
      rcases htrail with h | h
      · rw [h] at hs
        exact absurd hs (by decide)
      · exact h
    subst hw2nil
    subst hm
    rw [show ("GB".data : List Char) = ['G', 'B'] from rfl] at hs
    rw [hs]
    simp only [List.append_nil]
    rw [if_neg (by rw [@isSuffixOf_pair_eq_false_of_ne 'M' 'B' 'G' 'B' (w1 ++ d)
      (by decide)]; exact Bool.false_ne_true)]
    rw [if_neg (by rw [@isSuffixOf_pair_eq_false_of_ne 'K' 'B' 'G' 'B' (w1 ++ d)
      (by decide)]; exact Bool.false_ne_true)]
    rw [if_pos (isSuffixOf_pair_self 'G' 'B' (w1 ++ d))]
    have hlen : ((w1 ++ d) ++ ['G', 'B']).length - 2 = (w1 ++ d).length := by
      simp
      omega
    rw [hlen, List.take_left, hpint]
    rfl
  · -- no suffix
    subst hm
    rw [hs]
    simp only [List.map_nil, List.append_nil]
    have hlast : ∃ y, ((w1 ++ d) ++ w2).getLast? = some y ∧ y ≠ 'B' := by
      cases hw2c : w2 with
      | nil =>
        obtain ⟨y, hym, hyl⟩ := exists_getLast?_of_ne_nil d hd
        refine ⟨y, ?_, ne_B_of_digit y (hdd y hym)⟩
        rw [List.append_nil, List.getLast?_append_of_ne_nil w1 hd]
        exact hyl
      | cons c2 t2 =>
        obtain ⟨y, hym, hyl⟩ := exists_getLast?_of_ne_nil w2 (by rw [hw2c]; simp)
        refine ⟨y, ?_, ne_B_of_space y (hw2 y hym)⟩
        rw [← hw2c, List.getLast?_append_of_ne_nil _ (by rw [hw2c]; simp)]
        exact hyl
    obtain ⟨y, hyl, hyB⟩ := hlast
    rw [if_neg (show ¬(List.isSuffixOf ['M', 'B'] (w1 ++ d ++ w2) = true) by
      rw [@isSuffixOf_pair_eq_false_of_getLast 'M' 'B' y _ hyl hyB]
      exact Bool.false_ne_true)]
    rw [if_neg (show ¬(List.isSuffixOf ['K', 'B'] (w1 ++ d ++ w2) = true) by
      rw [@isSuffixOf_pair_eq_false_of_getLast 'K' 'B' y _ hyl hyB]
      exact Bool.false_ne_true)]
    rw [if_neg (show ¬(List.isSuffixOf ['G', 'B'] (w1 ++ d ++ w2) = true) by
      rw [@isSuffixOf_pair_eq_false_of_getLast 'G' 'B' y _ hyl hyB]
      exact Bool.false_ne_true)]
    rw [List.append_assoc, pyIntParse_space_digits_space w1 d w2 hw1 hw2 hd hdd]
    simp

/-- Claim C4 (witness): the amended theorem applied to `" 10mb"`
(leading space, lowercase suffix), together with the concrete values the
claim quotes. -/
theorem parse_size_amended_witness :
    (("mb".data.map pyUpperChar = "MB".data) ∧ (∀ c ∈ ['1', '0'], isDigitC c = true)) ∧
    parseSizeL ([' '] ++ ['1', '0'] ++ "mb".data ++ []) =
      some ((digitsValL ['1', '0'] : Nat) * ((1024 : Int) * 1024)) ∧
    (parse_size " 10mb" = some 10485760 ∧ parse_size "10MB" = some 10485760 ∧
      parse_size "512KB" = some 524288 ∧ parse_size "100" = some 100) :=
  ⟨⟨by decide, by decide⟩,
   parse_size_amended [' '] ['1', '0'] "mb".data [] (1024 * 1024)
     (by decide) (by decide) (by decide) (by decide)
     (Or.inl ⟨by decide, rfl⟩) (Or.inr rfl),
   by decide, by decide, by decide, by decide⟩

/-- Claim C4 (counterexample): a size string surrounded by whitespace is
rejected when it carries a suffix — `int("10MB ")`-style trailing
whitespace defeats the `endswith` test, so `parse_size` fails instead of
returning 10485760 as the claim requires. -/
theorem parse_size_trailing_space_cex :
    parse_size "10MB " = none ∧ parse_size " 10MB " = none := by
  exact ⟨by decide, by decide⟩

/-- Claim C5: whenever the numeric part of the (uppercased) size string
— the text before a recognised `MB`/`KB`/`GB` suffix, or the whole
string without one — is not a parseable Python integer, `parse_size`
fails (the `ValueError` of `int`, i.e. the `InvalidSizeFormat` of the
spec) instead of returning a byte count. -/
theorem parse_size_invalid_numeric (s : List Char)
    (h : pyIntParse (numericPart (s.map pyUpperChar)) = none) :
    parseSizeL s = none := by
  cases hmb : List.isSuffixOf "MB".data (s.map pyUpperChar) <;>
    cases hkb : List.isSuffixOf "KB".data (s.map pyUpperChar) <;>
      cases hgb : List.isSuffixOf "GB".data (s.map pyUpperChar) <;>
        simp_all [parseSizeL, numericPart]

/-- Claim C5 (witness): the fractional prefix `"1.5MB"` has an
unparseable numeric part, and `parse_size` rejects it. -/
theorem parse_size_invalid_numeric_witness :
    pyIntParse (numericPart ("1.5MB".data.map pyUpperChar)) = none ∧
      parseSizeL "1.5MB".data = none ∧ parse_size "abcMB" = none :=
  ⟨by decide, parse_size_invalid_numeric _ (by decide), by decide⟩
